import Mathlib

/-!
A shallow embedding of the task-rendering engine of `upup/pkg/fi/context.go`
and of the cluster-defaulting pass (`PerformAssignments`, `assignProxy`,
`ensureKubernetesVersion`, `incrementIP`) of the second source file, together
with theorems settling the specification claims about them.

Go strings are modelled as `List Char` (`GoString`); the relevant functions of
Go's `strings` package (`Split`, `Join`, `Contains`, `HasPrefix`) are embedded
below with their documented semantics.
-/

set_option autoImplicit false

/-- Go strings, modelled as lists of characters. -/
abbrev GoString := List Char

/-- Convert a Lean string literal to its `GoString` model. -/
def gs (s : String) : GoString := s.data

/-- Embedding of Go `strings.HasPrefix s pat`: does `s` start with `pat`? -/
def leadsWith : GoString → GoString → Bool
  | _, [] => true
  | [], _ :: _ => false
  | c :: s, d :: t => c = d && leadsWith s t

/-- Embedding of Go `strings.Contains s sub`: does `s` contain `sub` as a
contiguous substring? -/
def containsSeg : GoString → GoString → Bool
  | [], sub => sub.isEmpty
  | c :: s, sub => leadsWith (c :: s) sub || containsSeg s sub

/-- Embedding of Go `strings.Split s sep` for a one-character separator
`sep` (Go semantics: `Split "" sep = [""]`, separators are not kept). -/
def goSplitChar (sep : Char) : GoString → List GoString
  | [] => [[]]
  | c :: s =>
    if c = sep then [] :: goSplitChar sep s
    else
      match goSplitChar sep s with
      | [] => [[c]]
      | g :: gs => (c :: g) :: gs

/-- Embedding of Go `strings.Join l sep` for a one-character separator. -/
def goJoinChar (sep : Char) : List GoString → GoString
  | [] => []
  | [x] => x
  | x :: y :: xs => x ++ sep :: goJoinChar sep (y :: xs)

/-!
Model of `upup/pkg/fi/context.go`.

`Context.Render(a, e, changes)` inspects its task arguments only through
reflection: `e`'s lifecycle (via the `HasLifecycle` interface), whether `a` is
nil, `e`'s method set with the convertibility of each parameter type, the task
name, and the result of `buildChangeList`.  `RenderInput` captures exactly
those observations; helpers of the repository that are not part of the given
sources (`getTaskName`, `buildChangeList`, `DryRunTarget.Render`) enter the
model as oracle fields of `RenderInput`, documented on each field.
-/

/-- The lifecycle policies named by the code (`context.go` switches only on
`LifecycleExistsAndValidates` and `LifecycleExistsAndWarnIfChanges`; every
other value, represented here by `Sync`, falls through the switch). -/
inductive Lifecycle where
  | Sync
  | ExistsAndValidates
  | ExistsAndWarnIfChanges
deriving DecidableEq

/-- A task value as `Render` sees it: an opaque identity plus the one fact
reflection extracts from it (`reflect.ValueOf(·).IsNil()`). -/
structure TaskVal where
  ident : Nat
  isNil : Bool
deriving DecidableEq

/-- One entry of the change list built by `buildChangeList` (the fields
`Render` reads from it). -/
structure Change where
  FieldName : GoString
  Description : GoString
deriving DecidableEq

/-- Convertibility of one parameter of a candidate `Render*` method, as
checked by `arg.ConvertibleTo` against the task's own type, `*fi.Context`,
and the active target's type. -/
structure Param where
  convToTask : Bool
  convToContext : Bool
  convToTarget : Bool
deriving DecidableEq

/-- The ways `Context.Render` can fail, one constructor per `return`ed
error of the source (plus `routineErr` for arbitrary errors produced by an
invoked routine). -/
inductive RenderErr where
  | eavNotFound
  | eawicNotFound
  | eavDidNotMatch
  | changeListErr (msg : GoString)
  | ambiguousRenderer
  | noRenderer
  | routineErr (msg : GoString)
deriving DecidableEq

/-- The spec's `LifecycleViolation` taxonomy entry: the errors whose message
starts with "Lifecycle set to". -/
def RenderErr.isLifecycleViolation : RenderErr → Bool
  | .eavNotFound => true
  | .eawicNotFound => true
  | .eavDidNotMatch => true
  | _ => false

/-- A method of the expected task's type, as reflection presents it:
its name, its parameter convertibility, and (oracle) the error value the
routine returns when invoked (`none` models a nil error). -/
structure Method where
  name : GoString
  params : List Param
  returnsErr : Option RenderErr
deriving DecidableEq

/-- An argument passed to the resolved routine: the running `Context`, the
active `Target`, or one of the task values appended at the end. -/
inductive DispatchArg where
  | contextArg
  | targetArg
  | val (v : TaskVal)
deriving DecidableEq

/-- Record of the one routine invocation `Render` performs. -/
structure Invocation where
  name : GoString
  args : List DispatchArg
deriving DecidableEq

/-- Everything `Context.Render(a, e, changes)` observes about its arguments
and the context. -/
structure RenderInput where
  /-- the `a` (actual) argument -/
  a : TaskVal
  /-- the `e` (expected) argument -/
  e : TaskVal
  /-- the `changes` argument -/
  changes : TaskVal
  /-- `e.GetLifecycle()` when `e` implements `HasLifecycle`, else `none`;
  a nil `*Lifecycle` is also `none` -/
  lifecycle : Option Lifecycle
  /-- oracle for `getTaskName(e)` (helper outside the given sources) -/
  taskName : GoString
  /-- oracle for `buildChangeList(a, e, changes)` (helper outside the given
  sources): either its error or the change list it returns -/
  changeList : Except GoString (List Change)
  /-- whether `c.Target` is a `*DryRunTarget` -/
  targetIsDryRun : Bool
  /-- oracle for the error returned by `DryRunTarget.Render` (outside the
  given sources; per the spec it records the triple and returns success) -/
  dryRunResult : Option RenderErr
  /-- the method set of `e`'s type, in reflection order -/
  methods : List Method

/-- The observable outcome of one `Context.Render` call: its returned error
(`none` = nil), what it wrote to standard error, the triple recorded by the
dry-run target (if any), and the task routine invoked (if any). -/
structure RenderOutcome where
  result : Option RenderErr
  stderr : GoString
  recorded : Option (TaskVal × TaskVal × TaskVal)
  invoked : Option Invocation
deriving DecidableEq

/-- Go's `%-20s` verb: pad on the right with spaces to a minimum width
of 20. -/
def padTo20 (s : GoString) : GoString :=
  s ++ List.replicate (20 - s.length) ' '

/-- The text `Render` appends to its buffer for one change: a single
`"  \t%-20s\t%s\n"` line when the description has one line, otherwise a
`"  \t%-20s\n"` field-name line followed by one `"  \t%-20s\t%s\n"` line
(with an empty name) per description line. -/
def renderChangeText (ch : Change) : GoString :=
  let lines := goSplitChar '\n' ch.Description
  if lines.length = 1 then
    gs "  \t" ++ padTo20 ch.FieldName ++ gs "\t" ++ ch.Description ++ gs "\n"
  else
    gs "  \t" ++ padTo20 ch.FieldName ++ gs "\n" ++
      (lines.map (fun line =>
        gs "  \t" ++ padTo20 [] ++ gs "\t" ++ line ++ gs "\n")).flatten

/-- The full buffer `Render` writes to standard error in the
lifecycle-divergence branch (`context.go` lines 126-142). -/
def lifecycleReport (taskName : GoString) (cl : List Change) : GoString :=
  gs "Object from different phase did not match, problems possible:\n" ++
  (gs "  " ++ taskName ++ gs "/" ++ gs "?" ++ gs "\n") ++
  (cl.map renderChangeText).flatten ++ gs "\n"

/-- Join a list of lines, terminating every line with a newline. -/
def unlinesGo (ls : List GoString) : GoString :=
  (ls.map (fun l => l ++ gs "\n")).flatten

/-- The lines the report devotes to one change, stated independently of the
buffer-append order of the code: one padded single line, or a padded
field-name line followed by one indented line per description line. -/
def reportFieldLines (ch : Change) : List GoString :=
  let lines := goSplitChar '\n' ch.Description
  if lines.length = 1 then
    [gs "  \t" ++ padTo20 ch.FieldName ++ gs "\t" ++ ch.Description]
  else
    (gs "  \t" ++ padTo20 ch.FieldName) ::
      lines.map (fun line => gs "  \t" ++ padTo20 [] ++ gs "\t" ++ line)

/-- The report as a list of lines: a fixed preamble line, a header line
containing the task's logical name, the per-field lines, and a trailing
blank line. -/
def reportLines (taskName : GoString) (cl : List Change) : List GoString :=
  (gs "Object from different phase did not match, problems possible:" ::
    (gs "  " ++ taskName ++ gs "/?") ::
    cl.flatMap reportFieldLines) ++ [[]]

/-- The inner parameter loop of the dispatcher: each parameter is checked,
in order, for convertibility to the task's type (no argument appended), the
`Context` type (the context appended), then the target's type (the target
appended); any other parameter makes the method not match. -/
def matchParams : List Param → Option (List DispatchArg)
  | [] => some []
  | p :: ps =>
    if p.convToTask then matchParams ps
    else if p.convToContext then
      (matchParams ps).map (fun args => .contextArg :: args)
    else if p.convToTarget then
      (matchParams ps).map (fun args => .targetArg :: args)
    else none

/-- The method loop of the dispatcher: walk the methods whose name begins
with "Render"; a second match aborts with the ambiguity error, carrying the
first match through the accumulator otherwise. -/
def findRendererAux :
    List Method → Option (Method × List DispatchArg) →
    Except RenderErr (Option (Method × List DispatchArg))
  | [], acc => .ok acc
  | m :: ms, acc =>
    if leadsWith m.name (gs "Render") then
      match matchParams m.params with
      | some args =>
        match acc with
        | some _ => .error .ambiguousRenderer
        | none => findRendererAux ms (some (m, args))
      | none => findRendererAux ms acc
    else findRendererAux ms acc

/-- Routine resolution (`context.go` lines 163-201): the unique matching
"Render"-prefixed method, or `noRenderer` when none matched. -/
def findRenderer (ms : List Method) : Except RenderErr (Method × List DispatchArg) :=
  match findRendererAux ms none with
  | .error err => .error err
  | .ok none => .error .noRenderer
  | .ok (some r) => .ok r

/-- The dispatch tail of `Render` (`context.go` lines 154-212): the dry-run
target records the triple and its result is returned; otherwise the resolved
routine is called with the resolved arguments followed by `a`, `e`,
`changes`, and its error is returned unchanged. -/
def renderDispatch (c : RenderInput) : RenderOutcome :=
  if c.targetIsDryRun then
    { result := c.dryRunResult, stderr := [],
      recorded := some (c.a, c.e, c.changes), invoked := none }
  else
    match findRenderer c.methods with
    | .error err =>
      { result := some err, stderr := [], recorded := none, invoked := none }
    | .ok (m, args) =>
      { result := m.returnsErr, stderr := [], recorded := none,
        invoked := some { name := m.name,
                          args := args ++ [.val c.a, .val c.e, .val c.changes] } }

/-- `Context.Render` (`context.go` lines 102-213). -/
def render (c : RenderInput) : RenderOutcome :=
  match c.lifecycle with
  | none => renderDispatch c
  | some lc =>
    if c.a.isNil then
      match lc with
      | .ExistsAndValidates =>
        { result := some .eavNotFound, stderr := [],
          recorded := none, invoked := none }
      | .ExistsAndWarnIfChanges =>
        { result := some .eawicNotFound, stderr := [],
          recorded := none, invoked := none }
      | .Sync => renderDispatch c
    else
      match lc with
      | .ExistsAndValidates | .ExistsAndWarnIfChanges =>
        match c.changeList with
        | .error err =>
          { result := some (.changeListErr err), stderr := [],
            recorded := none, invoked := none }
        | .ok cl =>
          let report := lifecycleReport c.taskName cl
          if lc = .ExistsAndValidates then
            { result := some .eavDidNotMatch, stderr := report,
              recorded := none, invoked := none }
          else
            { result := none, stderr := report,
              recorded := none, invoked := none }
      | .Sync => renderDispatch c

/-- The claim-level matching predicate: a "Render"-prefixed method all of
whose parameters are convertible to the task's type, the `Context` type, or
the target's type. -/
def methodMatches (m : Method) : Bool :=
  leadsWith m.name (gs "Render") &&
    m.params.all (fun p => p.convToTask || p.convToContext || p.convToTarget)

/-- The methods of `ms` that match, in order. -/
def matchingMethods (ms : List Method) : List Method :=
  ms.filter methodMatches

/-!
Model of `Context.Close` (`context.go` lines 78-86).  `Close` has no return
value; `os.RemoveAll`'s possible failure is an oracle.
-/

/-- What `Close` observes: the context's `Tmpdir`, and (oracle) whether
`os.RemoveAll` fails on it. -/
structure CloseInput where
  tmpdir : GoString
  removeFails : Bool

/-- The observable effects of a `Close` call.  `returnedError` models the
value propagated to the caller; the Go signature `func (c *Context) Close()`
has no error result, so it is `none` on every path. -/
structure CloseOutcome where
  attemptedRemove : Bool
  warned : Bool
  returnedError : Option GoString
deriving DecidableEq

/-- `Context.Close`: when `Tmpdir` is nonempty, recursively remove it; a
removal failure is only logged as a warning. -/
def contextClose (c : CloseInput) : CloseOutcome :=
  if c.tmpdir ≠ [] then
    { attemptedRemove := true, warned := c.removeFails, returnedError := none }
  else
    { attemptedRemove := false, warned := false, returnedError := none }

/-!
Model of the cluster-defaulting pass (`PerformAssignments`, `assignProxy`,
`ensureKubernetesVersion`, `incrementIP`, `FindLatestKubernetesVersion`).

The pass consults external collaborators (the cloud, the channel loader, the
virtual file system, Go's `net` package) that are outside the given sources;
they are modelled as deterministic oracle functions collected in `Env`.
Cluster fields are restricted to the ones this pass reads or writes.
-/

/-- kops `TopologySpec`, restricted to the fields this file writes.  Modelled
from the spec: the kops API types are not under the given sources; the
`TopologyPublic` constant is represented by the string "public". -/
structure TopologySpec where
  Masters : GoString
  Nodes : GoString
deriving DecidableEq

/-- kops `EgressProxySpec`, restricted to the field this file reads and
writes (`ProxyExcludes`). -/
structure EgressProxySpec where
  ProxyExcludes : GoString
deriving DecidableEq

/-- The cluster-spec fields read or written by this pass. -/
structure ClusterSpec where
  NetworkID : GoString
  NetworkCIDR : GoString
  NonMasqueradeCIDR : GoString
  MasterPublicName : GoString
  KubernetesVersion : GoString
  Channel : GoString
  ClusterDNSDomain : GoString
  CloudProvider : GoString
  Topology : Option TopologySpec
  EgressProxy : Option EgressProxySpec
  Subnets : List GoString
deriving DecidableEq

/-- A kops `Cluster`: its `ObjectMeta.Name` and its spec. -/
structure Cluster where
  Name : GoString
  Spec : ClusterSpec
deriving DecidableEq

/-- Deterministic oracles for the collaborators of the defaulting pass that
are outside the given sources. -/
structure Env where
  /-- `Cluster.SharedVPC()` (kops API method, not under the given sources) -/
  sharedVPC : Cluster → Bool
  /-- `BuildCloud(c)`: success or failure (the handle itself is only used
  through `findVPCInfo`) -/
  buildCloud : Cluster → Except GoString Unit
  /-- `cloud.FindVPCInfo(networkID)`: the VPC's CIDR, `none` when the VPC
  was not found -/
  findVPCInfo : GoString → Except GoString (Option GoString)
  /-- Modelled from the spec: `assignCIDRsToSubnets` (not under the given
  sources) assigns CIDRs to the cluster's subnets and changes nothing
  else; the oracle yields the new subnet list. -/
  assignSubnets : Cluster → Except GoString (List GoString)
  /-- `net.ParseCIDR`: the IP part as bytes, `none` on a parse error -/
  parseCIDR : GoString → Option (List Nat)
  /-- `ipNet.Contains ip` for the network parsed from the given CIDR -/
  ipNetContains : GoString → List Nat → Bool
  /-- `net.IP.String` -/
  ipToString : List Nat → GoString
  /-- `kops.LoadChannel` (the loaded channel abstracted to an identifier) -/
  loadChannel : GoString → Except GoString GoString
  /-- `kops.RecommendedKubernetesVersion(channel, kopsversion.Version)`,
  `nil` modelled as `none` -/
  recommendedVersion : GoString → Option GoString
  /-- `vfs.Context.ReadFile` -/
  readFile : GoString → Except GoString GoString

/-- The byte-increment loop of `incrementIP` on the reversed byte list:
increment the first (least significant) byte and stop unless it wrapped
around to zero. -/
def incrBytesRev : List Nat → List Nat
  | [] => []
  | b :: rest =>
    if (b + 1) % 256 ≠ 0 then (b + 1) % 256 :: rest
    else (b + 1) % 256 :: incrBytesRev rest

/-- The increment `incrementIP` performs on the IP's bytes (the Go loop runs
from the last byte towards the first). -/
def incrBytes (ip : List Nat) : List Nat :=
  (incrBytesRev ip.reverse).reverse

/-- `incrementIP(ip, cidr)`: re-parse the CIDR, increment the IP, fail when
the incremented IP overflows the network, else format it. -/
def incrementIP (env : Env) (ip : List Nat) (cidr : GoString) : Except GoString GoString :=
  match env.parseCIDR cidr with
  | none => .error (gs "invalid CIDR address")
  | some _ =>
    let ip1 := incrBytes ip
    if env.ipNetContains cidr ip1 then .ok (env.ipToString ip1)
    else .error (gs "overflowed CIDR while incrementing IP")

/-- The basic exclude-candidate loop of `assignProxy`: skip empty candidates
and candidates already contained (as substrings) in the original
`ProxyExcludes`, append the rest. -/
def addExcludes (orig : GoString) : List GoString → List GoString → List GoString
  | slice, [] => slice
  | slice, x :: rest =>
    if x = [] then addExcludes orig slice rest
    else if containsSeg orig x then addExcludes orig slice rest
    else addExcludes orig (slice ++ [x]) rest

/-- The fixed candidate list of `assignProxy`'s basic loop, in source
order. -/
def basicExcludes (c : Cluster) (firstIP : GoString) : List GoString :=
  [gs "127.0.0.1", gs "localhost", c.Spec.ClusterDNSDomain,
   c.Spec.MasterPublicName, c.Name, firstIP, c.Spec.NonMasqueradeCIDR]

/-- The AWS metadata address `assignProxy` excludes on AWS. -/
def awsNoProxy : GoString := gs "169.254.169.254"

/-- The successive `egressSlice` states of `assignProxy`'s body: start from
the split of the original `ProxyExcludes` (empty when the string is empty),
run the basic candidate loop, then conditionally append the AWS metadata
address and the cluster's `NetworkCIDR`; every containment check runs
against the original string. -/
def proxySlices (cluster : Cluster) (ep : EgressProxySpec) (firstIP : GoString) :
    List GoString :=
  let egressSlice :=
    if ep.ProxyExcludes ≠ [] then goSplitChar ',' ep.ProxyExcludes else []
  let slice1 := addExcludes ep.ProxyExcludes egressSlice (basicExcludes cluster firstIP)
  let slice2 :=
    if cluster.Spec.CloudProvider = gs "aws" ∧
        containsSeg ep.ProxyExcludes awsNoProxy = false then
      slice1 ++ [awsNoProxy]
    else slice1
  if cluster.Spec.NetworkCIDR ≠ [] then
    if containsSeg ep.ProxyExcludes cluster.Spec.NetworkCIDR = false then
      slice2 ++ [cluster.Spec.NetworkCIDR]
    else slice2
  else slice2

/-- `assignProxy(cluster)`: when an egress proxy is configured, extend its
`ProxyExcludes` with the default exclusions not already present and return
the updated proxy spec. -/
def assignProxy (env : Env) (cluster : Cluster) : Except GoString (Option EgressProxySpec) :=
  match cluster.Spec.EgressProxy with
  | none => .ok none
  | some ep =>
    match env.parseCIDR cluster.Spec.NonMasqueradeCIDR with
    | none => .error (gs "unable to parse Non Masquerade CIDR")
    | some ip =>
      match incrementIP env ip cluster.Spec.NonMasqueradeCIDR with
      | .error _ => .error (gs "unable to get first ip address in Non Masquerade CIDR")
      | .ok firstIP =>
        .ok (some { ep with ProxyExcludes := goJoinChar ',' (proxySlices cluster ep firstIP) })

/-- Go `strings.TrimSpace`. -/
def trimSpace (s : GoString) : GoString :=
  ((s.dropWhile Char.isWhitespace).reverse.dropWhile Char.isWhitespace).reverse

/-- The URL `FindLatestKubernetesVersion` reads. -/
def stableURL : GoString :=
  gs "https://storage.googleapis.com/kubernetes-release/release/stable.txt"

/-- `FindLatestKubernetesVersion`: read the stable-version file, trim
whitespace; wrap a read failure in its own message. -/
def FindLatestKubernetesVersion (env : Env) : Except GoString GoString :=
  match env.readFile stableURL with
  | .error e =>
    .error (gs "KubernetesVersion not specified, and unable to download latest version: " ++ e)
  | .ok b => .ok (trimSpace b)

/-- `ensureKubernetesVersion`: when `KubernetesVersion` is unset, try the
channel's recommended version, then the latest stable version. -/
def ensureKubernetesVersion (env : Env) (c : Cluster) : Except GoString Cluster :=
  let step1 : Except GoString Cluster :=
    if c.Spec.KubernetesVersion = [] then
      if c.Spec.Channel ≠ [] then
        match env.loadChannel c.Spec.Channel with
        | .error e => .error e
        | .ok channel =>
          match env.recommendedVersion channel with
          | some v => .ok { c with Spec := { c.Spec with KubernetesVersion := v } }
          | none => .ok c
      else .ok c
    else .ok c
  match step1 with
  | .error e => .error e
  | .ok c1 =>
    if c1.Spec.KubernetesVersion = [] then
      match FindLatestKubernetesVersion env with
      | .error e => .error e
      | .ok latest =>
        .ok { c1 with Spec := { c1.Spec with KubernetesVersion := latest } }
    else .ok c1

/-- `PerformAssignments`: populate required-but-unset cluster fields in
source order — shared-VPC `NetworkCIDR` inference, `Topology` default,
`NetworkCIDR` default, `NonMasqueradeCIDR` default, `MasterPublicName`
default, subnet CIDR assignment, proxy excludes, Kubernetes version. -/
def PerformAssignments (env : Env) (c0 : Cluster) : Except GoString Cluster :=
  match env.buildCloud c0 with
  | .error e => .error e
  | .ok _ =>
    let stepVPC : Except GoString Cluster :=
      if env.sharedVPC c0 = true ∧ c0.Spec.NetworkCIDR = [] then
        match env.findVPCInfo c0.Spec.NetworkID with
        | .error e => .error e
        | .ok none => .error (gs "unable to find VPC ID")
        | .ok (some vpcCIDR) =>
          let c1 := { c0 with Spec := { c0.Spec with NetworkCIDR := vpcCIDR } }
          if c1.Spec.NetworkCIDR = [] then
            .error (gs "Unable to infer NetworkCIDR from VPC ID, please specify --network-cidr")
          else .ok c1
      else .ok c0
    match stepVPC with
    | .error e => .error e
    | .ok c1 =>
      let c2 :=
        if c1.Spec.Topology = none then
          { c1 with Spec := { c1.Spec with
              Topology := some { Masters := gs "public", Nodes := gs "public" } } }
        else c1
      let c3 :=
        if c2.Spec.NetworkCIDR = [] ∧ env.sharedVPC c2 = false then
          { c2 with Spec := { c2.Spec with NetworkCIDR := gs "172.20.0.0/16" } }
        else c2
      let c4 :=
        if c3.Spec.NonMasqueradeCIDR = [] then
          { c3 with Spec := { c3.Spec with NonMasqueradeCIDR := gs "100.64.0.0/10" } }
        else c3
      let c5 :=
        if c4.Spec.MasterPublicName = [] ∧ c4.Name ≠ [] then
          { c4 with Spec := { c4.Spec with MasterPublicName := gs "api." ++ c4.Name } }
        else c4
      match env.assignSubnets c5 with
      | .error e => .error e
      | .ok subnets =>
        let c6 := { c5 with Spec := { c5.Spec with Subnets := subnets } }
        match assignProxy env c6 with
        | .error e => .error e
        | .ok ep =>
          let c7 := { c6 with Spec := { c6.Spec with EgressProxy := ep } }
          ensureKubernetesVersion env c7

/-- A concrete oracle environment, exercised by the witnesses below. -/
def witnessEnv : Env where
  sharedVPC := fun _ => false
  buildCloud := fun _ => .ok ()
  findVPCInfo := fun _ => .ok none
  assignSubnets := fun _ => .ok [gs "10.1.0.0/16"]
  parseCIDR := fun _ => some [100, 64, 0, 0]
  ipNetContains := fun _ _ => true
  ipToString := fun _ => gs "100.64.0.1"
  loadChannel := fun _ => .ok (gs "stable")
  recommendedVersion := fun _ => some (gs "1.7.0")
  readFile := fun _ => .ok (gs "v1.7.2")

/-- A concrete cluster, exercised by the witnesses below. -/
def witnessCluster : Cluster where
  Name := gs "c"
  Spec := {
    NetworkID := []
    NetworkCIDR := gs "10.0.0.0/8"
    NonMasqueradeCIDR := gs "100.64.0.0/10"
    MasterPublicName := gs "api.c"
    KubernetesVersion := gs "1.7.0"
    Channel := gs "stable"
    ClusterDNSDomain := []
    CloudProvider := gs "gce"
    Topology := some { Masters := gs "public", Nodes := gs "public" }
    EgressProxy := some { ProxyExcludes := [] }
    Subnets := [] }

theorem leadsWith_refl : ∀ s : GoString, leadsWith s s = true
  | [] => rfl
  | c :: s => by simp [leadsWith, leadsWith_refl s]

theorem leadsWith_extend : ∀ (sub s t : GoString),
    leadsWith s sub = true → leadsWith (s ++ t) sub = true
  | [], s, t, _ => by cases s <;> simp [leadsWith]
  | _ :: _, [], _, h => by simp [leadsWith] at h
  | d :: ds, c :: s, t, h => by
    simp only [leadsWith, Bool.and_eq_true, decide_eq_true_eq] at h
    simp only [List.cons_append, leadsWith, Bool.and_eq_true, decide_eq_true_eq]
    exact ⟨h.1, leadsWith_extend ds s t h.2⟩

theorem containsSeg_nil_right : ∀ s : GoString, containsSeg s [] = true
  | [] => rfl
  | _ :: s => by simp [containsSeg, leadsWith]

theorem containsSeg_nil_left {sub : GoString} (h : containsSeg [] sub = true) :
    sub = [] := by
  cases sub with
  | nil => rfl
  | cons c s => simp [containsSeg, List.isEmpty] at h

theorem containsSeg_of_leadsWith {s sub : GoString} (h : leadsWith s sub = true) :
    containsSeg s sub = true := by
  cases s with
  | nil =>
    cases sub with
    | nil => rfl
    | cons d t => simp [leadsWith] at h
  | cons c s => simp [containsSeg, h]

theorem containsSeg_self (s : GoString) : containsSeg s s = true :=
  containsSeg_of_leadsWith (leadsWith_refl s)

theorem containsSeg_append_right : ∀ (s t sub : GoString),
    containsSeg s sub = true → containsSeg (s ++ t) sub = true
  | [], t, sub, h => by
    have hsub := containsSeg_nil_left h
    subst hsub
    simpa using containsSeg_nil_right t
  | c :: s, t, sub, h => by
    simp only [containsSeg, Bool.or_eq_true] at h
    rcases h with h | h
    · simp only [List.cons_append, containsSeg, Bool.or_eq_true]
      exact Or.inl (leadsWith_extend sub (c :: s) t h)
    · simp only [List.cons_append, containsSeg, Bool.or_eq_true]
      exact Or.inr (containsSeg_append_right s t sub h)

theorem containsSeg_append_left : ∀ (s t sub : GoString),
    containsSeg t sub = true → containsSeg (s ++ t) sub = true
  | [], _, _, h => by simpa using h
  | c :: s, t, sub, h => by
    simp only [List.cons_append, containsSeg, Bool.or_eq_true]
    exact Or.inr (containsSeg_append_left s t sub h)

theorem goSplitChar_ne_nil (sep : Char) : ∀ s : GoString, goSplitChar sep s ≠ []
  | [] => by simp [goSplitChar]
  | c :: s => by
    simp only [goSplitChar]
    split
    · simp
    · split <;> simp

theorem goJoinChar_goSplitChar (sep : Char) :
    ∀ s : GoString, goJoinChar sep (goSplitChar sep s) = s
  | [] => rfl
  | c :: s => by
    simp only [goSplitChar]
    split
    · rename_i hc
      rcases hsplit : goSplitChar sep s with _ | ⟨g, gl⟩
      · exact absurd hsplit (goSplitChar_ne_nil sep s)
      · have ih := goJoinChar_goSplitChar sep s
        rw [hsplit] at ih
        subst hc
        simp [goJoinChar, ih]
    · rcases hsplit : goSplitChar sep s with _ | ⟨g, gl⟩
      · exact absurd hsplit (goSplitChar_ne_nil sep s)
      · have ih := goJoinChar_goSplitChar sep s
        rw [hsplit] at ih
        cases gl with
        | nil => simp [goJoinChar] at ih ⊢; simp [ih]
        | cons y ys =>
          simp only [goJoinChar] at ih ⊢
          simp [← ih]

theorem goJoinChar_append (sep : Char) :
    ∀ (l1 l2 : List GoString), l1 ≠ [] →
    goJoinChar sep (l1 ++ l2) =
      goJoinChar sep l1 ++
        (match l2 with
         | [] => []
         | _ :: _ => sep :: goJoinChar sep l2)
  | [], _, h => absurd rfl h
  | [x], l2, _ => by
    cases l2 with
    | nil => simp [goJoinChar]
    | cons y ys => simp [goJoinChar]
  | x :: y :: xs, l2, _ => by
    have ih := goJoinChar_append sep (y :: xs) l2 (by simp)
    simp only [List.cons_append, goJoinChar]
    rw [List.cons_append] at ih
    · cases l2 with
      | nil => simp
      | cons z zs =>
        simp only [goJoinChar] at ih ⊢
        simp [ih]

theorem containsSeg_goJoinChar_of_mem (sep : Char) :
    ∀ (l : List GoString) (x : GoString), x ∈ l →
    containsSeg (goJoinChar sep l) x = true
  | [], x, h => absurd h (List.not_mem_nil x)
  | a :: ls, x, h => by
    rcases List.mem_cons.mp h with rfl | hmem
    · cases ls with
      | nil => exact containsSeg_self x
      | cons y ys =>
        simp only [goJoinChar]
        exact containsSeg_append_right x _ x (containsSeg_self x)
    · have hne : ls ≠ [] := List.ne_nil_of_mem hmem
      rcases ls with _ | ⟨y, ys⟩
      · exact absurd rfl hne
      · simp only [goJoinChar]
        have ih := containsSeg_goJoinChar_of_mem sep (y :: ys) x hmem
        have : containsSeg (sep :: goJoinChar sep (y :: ys)) x = true := by
          simp only [containsSeg, Bool.or_eq_true]
          exact Or.inr ih
        exact containsSeg_append_left a _ x this

theorem goJoinChar_ne_nil_of_mem (sep : Char) {l : List GoString} {x : GoString}
    (hmem : x ∈ l) (hne : x ≠ []) : goJoinChar sep l ≠ [] := by
  intro hnil
  have h := containsSeg_goJoinChar_of_mem sep l x hmem
  rw [hnil] at h
  exact hne (containsSeg_nil_left h)

/-!
Lemmas about `addExcludes` and `proxySlices`, leading to the idempotence of
`assignProxy` on the exclude list.
-/

theorem addExcludes_decomp (orig : GoString) :
    ∀ (cands slice : List GoString), ∃ rest, addExcludes orig slice cands = slice ++ rest := by
  intro cands
  induction cands with
  | nil => intro slice; exact ⟨[], by simp [addExcludes]⟩
  | cons x cs ih =>
    intro slice
    by_cases hx : x = []
    · rcases ih slice with ⟨rest, hrest⟩
      exact ⟨rest, by simp [addExcludes, hx, hrest]⟩
    · by_cases hc : containsSeg orig x = true
      · rcases ih slice with ⟨rest, hrest⟩
        exact ⟨rest, by simp [addExcludes, hx, hc, hrest]⟩
      · rcases ih (slice ++ [x]) with ⟨rest, hrest⟩
        refine ⟨[x] ++ rest, ?_⟩
        rw [show slice ++ [x] ++ rest = slice ++ ([x] ++ rest) from List.append_assoc ..] at hrest
        simp only [Bool.not_eq_true] at hc
        simp [addExcludes, hx, hc, hrest]

theorem mem_addExcludes_of_mem (orig : GoString) (cands : List GoString)
    (slice : List GoString) (x : GoString) (hx : x ∈ slice) :
    x ∈ addExcludes orig slice cands := by
  rcases addExcludes_decomp orig cands slice with ⟨rest, h⟩
  rw [h]
  exact List.mem_append_left rest hx

theorem mem_addExcludes_of_cand (orig : GoString) :
    ∀ (cands slice : List GoString) (x : GoString), x ∈ cands → x ≠ [] →
      containsSeg orig x = false → x ∈ addExcludes orig slice cands := by
  intro cands
  induction cands with
  | nil => intro slice x hx; exact absurd hx (List.not_mem_nil x)
  | cons y cs ih =>
    intro slice x hx hne hnc
    rcases List.mem_cons.mp hx with rfl | hmem
    · simp only [addExcludes, if_neg hne, hnc]
      simp only [Bool.false_eq_true, if_false]
      exact mem_addExcludes_of_mem orig cs (slice ++ [x]) x (by simp)
    · by_cases hy : y = []
      · simp only [addExcludes, if_pos hy]
        exact ih slice x hmem hne hnc
      · by_cases hc : containsSeg orig y = true
        · simp only [addExcludes, if_neg hy, hc, if_true]
          exact ih slice x hmem hne hnc
        · simp only [Bool.not_eq_true] at hc
          simp only [addExcludes, if_neg hy, hc, Bool.false_eq_true, if_false]
          exact ih (slice ++ [y]) x hmem hne hnc

theorem addExcludes_stable (orig : GoString) :
    ∀ (cands slice : List GoString),
      (∀ x ∈ cands, x = [] ∨ containsSeg orig x = true) →
      addExcludes orig slice cands = slice := by
  intro cands
  induction cands with
  | nil => intro slice _; rfl
  | cons y cs ih =>
    intro slice h
    have hrest : ∀ x ∈ cs, x = [] ∨ containsSeg orig x = true :=
      fun x hx => h x (List.mem_cons_of_mem y hx)
    rcases h y (List.mem_cons_self y cs) with hy | hy
    · simp only [addExcludes, if_pos hy]
      exact ih slice hrest
    · by_cases hye : y = []
      · simp only [addExcludes, if_pos hye]
        exact ih slice hrest
      · simp only [addExcludes, if_neg hye, hy, if_true]
        exact ih slice hrest

theorem mem_condAppend {x : GoString} {l : List GoString} (P : Prop) [Decidable P]
    (y : GoString) (h : x ∈ l) : x ∈ (if P then l ++ [y] else l) := by
  by_cases hp : P
  · rw [if_pos hp]; exact List.mem_append_left [y] h
  · rw [if_neg hp]; exact h

theorem mem_condAppend2 {x : GoString} {l : List GoString} (A B : Prop)
    [Decidable A] [Decidable B] (y : GoString) (h : x ∈ l) :
    x ∈ (if A then (if B then l ++ [y] else l) else l) := by
  by_cases hA : A
  · rw [if_pos hA]; exact mem_condAppend B y h
  · rw [if_neg hA]; exact h

theorem exists_pref_condAppend {e l : List GoString} (P : Prop) [Decidable P]
    (y : GoString) (h : ∃ r, l = e ++ r) : ∃ r, (if P then l ++ [y] else l) = e ++ r := by
  rcases h with ⟨r, rfl⟩
  by_cases hp : P
  · exact ⟨r ++ [y], by rw [if_pos hp, List.append_assoc]⟩
  · exact ⟨r, by rw [if_neg hp]⟩

theorem exists_pref_condAppend2 {e l : List GoString} (A B : Prop)
    [Decidable A] [Decidable B] (y : GoString) (h : ∃ r, l = e ++ r) :
    ∃ r, (if A then (if B then l ++ [y] else l) else l) = e ++ r := by
  by_cases hA : A
  · rw [if_pos hA]; exact exists_pref_condAppend B y h
  · rw [if_neg hA]; exact h

theorem proxySlices_decomp (c : Cluster) (ep : EgressProxySpec) (fip : GoString) :
    ∃ rest, proxySlices c ep fip =
      (if ep.ProxyExcludes ≠ [] then goSplitChar ',' ep.ProxyExcludes else []) ++ rest := by
  simp only [proxySlices]
  apply exists_pref_condAppend2
  apply exists_pref_condAppend
  exact addExcludes_decomp ep.ProxyExcludes (basicExcludes c fip) _

theorem proxySlices_orig_pref (c : Cluster) (ep : EgressProxySpec) (fip : GoString)
    (hne : ep.ProxyExcludes ≠ []) :
    ∃ tail, goJoinChar ',' (proxySlices c ep fip) = ep.ProxyExcludes ++ tail := by
  rcases proxySlices_decomp c ep fip with ⟨rest, hS⟩
  rw [if_pos hne] at hS
  cases rest with
  | nil =>
    rw [hS, List.append_nil, goJoinChar_goSplitChar]
    exact ⟨[], by simp⟩
  | cons r rs =>
    rw [hS, goJoinChar_append ',' _ _ (goSplitChar_ne_nil ',' ep.ProxyExcludes),
      goJoinChar_goSplitChar]
    exact ⟨',' :: goJoinChar ',' (r :: rs), rfl⟩

theorem containsSeg_proxySlices_of_orig (c : Cluster) (ep : EgressProxySpec)
    (fip : GoString) {x : GoString} (hx : x ≠ [])
    (hc : containsSeg ep.ProxyExcludes x = true) :
    containsSeg (goJoinChar ',' (proxySlices c ep fip)) x = true := by
  have hne : ep.ProxyExcludes ≠ [] := by
    intro h0
    rw [h0] at hc
    exact hx (containsSeg_nil_left hc)
  rcases proxySlices_orig_pref c ep fip hne with ⟨tail, htail⟩
  rw [htail]
  exact containsSeg_append_right _ tail x hc

theorem proxySlices_saturated (c : Cluster) (ep : EgressProxySpec) (fip : GoString) :
    (∀ x ∈ basicExcludes c fip, x ≠ [] →
       containsSeg (goJoinChar ',' (proxySlices c ep fip)) x = true) ∧
    (c.Spec.CloudProvider = gs "aws" →
       containsSeg (goJoinChar ',' (proxySlices c ep fip)) awsNoProxy = true) ∧
    (c.Spec.NetworkCIDR ≠ [] →
       containsSeg (goJoinChar ',' (proxySlices c ep fip)) c.Spec.NetworkCIDR = true) ∧
    goJoinChar ',' (proxySlices c ep fip) ≠ [] := by
  refine ⟨?_, ?_, ?_, ?_⟩
  · intro x hx hxne
    by_cases hc : containsSeg ep.ProxyExcludes x = true
    · exact containsSeg_proxySlices_of_orig c ep fip hxne hc
    · have hc' : containsSeg ep.ProxyExcludes x = false := by simpa using hc
      have h1 := mem_addExcludes_of_cand ep.ProxyExcludes (basicExcludes c fip)
        (if ep.ProxyExcludes ≠ [] then goSplitChar ',' ep.ProxyExcludes else [])
        x hx hxne hc'
      have h2 : x ∈ proxySlices c ep fip := by
        simp only [proxySlices]
        exact mem_condAppend2 _ _ _ (mem_condAppend _ _ h1)
      exact containsSeg_goJoinChar_of_mem ',' _ x h2
  · intro haws
    by_cases hc : containsSeg ep.ProxyExcludes awsNoProxy = true
    · exact containsSeg_proxySlices_of_orig c ep fip (by decide) hc
    · have hc' : containsSeg ep.ProxyExcludes awsNoProxy = false := by simpa using hc
      have h2 : awsNoProxy ∈ proxySlices c ep fip := by
        simp only [proxySlices]
        apply mem_condAppend2
        rw [if_pos ⟨haws, hc'⟩]
        exact List.mem_append_right _ (by simp)
      exact containsSeg_goJoinChar_of_mem ',' _ _ h2
  · intro hnet
    by_cases hc : containsSeg ep.ProxyExcludes c.Spec.NetworkCIDR = true
    · exact containsSeg_proxySlices_of_orig c ep fip hnet hc
    · have hc' : containsSeg ep.ProxyExcludes c.Spec.NetworkCIDR = false := by simpa using hc
      have h2 : c.Spec.NetworkCIDR ∈ proxySlices c ep fip := by
        simp only [proxySlices]
        rw [if_pos hnet, if_pos hc']
        exact List.mem_append_right _ (by simp)
      exact containsSeg_goJoinChar_of_mem ',' _ _ h2
  · by_cases hne : ep.ProxyExcludes = []
    · have hc' : containsSeg ep.ProxyExcludes (gs "127.0.0.1") = false := by
        rw [hne]; decide
      have h1 := mem_addExcludes_of_cand ep.ProxyExcludes (basicExcludes c fip)
        (if ep.ProxyExcludes ≠ [] then goSplitChar ',' ep.ProxyExcludes else [])
        (gs "127.0.0.1") (by simp [basicExcludes]) (by decide) hc'
      have h2 : (gs "127.0.0.1") ∈ proxySlices c ep fip := by
        simp only [proxySlices]
        exact mem_condAppend2 _ _ _ (mem_condAppend _ _ h1)
      exact goJoinChar_ne_nil_of_mem ',' h2 (by decide)
    · rcases proxySlices_orig_pref c ep fip hne with ⟨tail, htail⟩
      rw [htail]
      intro h0
      exact hne (List.append_eq_nil.mp h0).1

theorem proxySlices_all_contained (c : Cluster) (ep : EgressProxySpec) (fip : GoString)
    (hne : ep.ProxyExcludes ≠ [])
    (hbasic : ∀ x ∈ basicExcludes c fip, x ≠ [] → containsSeg ep.ProxyExcludes x = true)
    (haws : c.Spec.CloudProvider = gs "aws" → containsSeg ep.ProxyExcludes awsNoProxy = true)
    (hnet : c.Spec.NetworkCIDR ≠ [] → containsSeg ep.ProxyExcludes c.Spec.NetworkCIDR = true) :
    proxySlices c ep fip = goSplitChar ',' ep.ProxyExcludes := by
  simp only [proxySlices, if_pos hne]
  have h1 : addExcludes ep.ProxyExcludes (goSplitChar ',' ep.ProxyExcludes)
      (basicExcludes c fip) = goSplitChar ',' ep.ProxyExcludes := by
    apply addExcludes_stable
    intro x hx
    by_cases hxe : x = []
    · exact Or.inl hxe
    · exact Or.inr (hbasic x hx hxe)
  rw [h1]
  have h2 : ¬(c.Spec.CloudProvider = gs "aws" ∧
      containsSeg ep.ProxyExcludes awsNoProxy = false) := by
    rintro ⟨hcp, hcf⟩
    rw [haws hcp] at hcf
    cases hcf
  rw [if_neg h2]
  by_cases hn : c.Spec.NetworkCIDR = []
  · rw [if_neg (fun h => h hn)]
  · rw [if_pos hn, if_neg (by simp [hnet hn])]

theorem assignProxy_second_run (env : Env) (c : Cluster) (ep1 : EgressProxySpec)
    (h1 : assignProxy env c = .ok (some ep1)) :
    assignProxy env { c with Spec := { c.Spec with EgressProxy := some ep1 } } =
      .ok (some ep1) := by
  cases hep : c.Spec.EgressProxy with
  | none => simp [assignProxy, hep] at h1
  | some ep0 =>
    cases hip : env.parseCIDR c.Spec.NonMasqueradeCIDR with
    | none => simp [assignProxy, hep, hip] at h1
    | some ip =>
      cases hfi : incrementIP env ip c.Spec.NonMasqueradeCIDR with
      | error e => simp [assignProxy, hep, hip, hfi] at h1
      | ok fip =>
        simp only [assignProxy, hep, hip, hfi, Except.ok.injEq, Option.some.injEq] at h1
        subst h1
        obtain ⟨hb, ha, hn, hne⟩ := proxySlices_saturated c ep0 fip
        have hstable := proxySlices_all_contained
          { c with Spec :=
              { c.Spec with EgressProxy := some ⟨goJoinChar ',' (proxySlices c ep0 fip)⟩ } }
          ⟨goJoinChar ',' (proxySlices c ep0 fip)⟩ fip hne hb ha hn
        simp only [assignProxy, hip, hfi, hstable, Except.ok.injEq, Option.some.injEq]
        exact congrArg (fun pe => EgressProxySpec.mk pe) (goJoinChar_goSplitChar ',' _)

theorem performAssignments_frame (env : Env) (c c' : Cluster)
    (hNC : c.Spec.NetworkCIDR ≠ [])
    (hNM : c.Spec.NonMasqueradeCIDR ≠ [])
    (hMP : c.Spec.MasterPublicName ≠ [])
    (hTop : c.Spec.Topology ≠ none)
    (hKV : c.Spec.KubernetesVersion ≠ [])
    (hok : PerformAssignments env c = .ok c') :
    c'.Spec.NetworkCIDR = c.Spec.NetworkCIDR ∧
    c'.Spec.NonMasqueradeCIDR = c.Spec.NonMasqueradeCIDR ∧
    c'.Spec.MasterPublicName = c.Spec.MasterPublicName ∧
    c'.Spec.Topology = c.Spec.Topology ∧
    c'.Spec.KubernetesVersion = c.Spec.KubernetesVersion := by
  cases hbc : env.buildCloud c with
  | error e => simp [PerformAssignments, hbc] at hok
  | ok u =>
    have h1 : ¬(env.sharedVPC c = true ∧ c.Spec.NetworkCIDR = []) := fun h => hNC h.2
    have h3 : ¬(c.Spec.NetworkCIDR = [] ∧ env.sharedVPC c = false) := fun h => hNC h.1
    have h5 : ¬(c.Spec.MasterPublicName = [] ∧ c.Name ≠ []) := fun h => hMP h.1
    simp only [PerformAssignments, hbc, if_neg h1, if_neg hTop, if_neg h3, if_neg hNM,
      if_neg h5] at hok
    cases hsub : env.assignSubnets c with
    | error e => rw [hsub] at hok; cases hok
    | ok subnets =>
      rw [hsub] at hok
      simp only at hok
      cases hap : assignProxy env { c with Spec := { c.Spec with Subnets := subnets } } with
      | error e => rw [hap] at hok; cases hok
      | ok ep =>
        rw [hap] at hok
        simp only [ensureKubernetesVersion, if_neg hKV, Except.ok.injEq] at hok
        subst hok
        exact ⟨rfl, rfl, rfl, rfl, rfl⟩

/-!
Lemmas about the render dispatcher.
-/

theorem render_eq_dispatch (inp : RenderInput)
    (h : inp.lifecycle = none ∨ inp.lifecycle = some .Sync) :
    render inp = renderDispatch inp := by
  rcases h with h | h
  · simp [render, h]
  · by_cases hnil : inp.a.isNil = true
    · simp [render, h, hnil]
    · simp only [Bool.not_eq_true] at hnil
      simp [render, h, hnil]

theorem matchParams_isSome_iff (ps : List Param) :
    (matchParams ps).isSome = true ↔
      ps.all (fun p => p.convToTask || p.convToContext || p.convToTarget) = true := by
  induction ps with
  | nil => simp [matchParams]
  | cons p ps ih =>
    by_cases h1 : p.convToTask = true
    · simp [matchParams, h1, ih]
    · simp only [Bool.not_eq_true] at h1
      by_cases h2 : p.convToContext = true
      · simp [matchParams, h1, h2, ih]
      · simp only [Bool.not_eq_true] at h2
        by_cases h3 : p.convToTarget = true
        · simp [matchParams, h1, h2, h3, ih]
        · simp only [Bool.not_eq_true] at h3
          simp [matchParams, h1, h2, h3]

theorem matchParams_of_methodMatches {m : Method} (h : methodMatches m = true) :
    leadsWith m.name (gs "Render") = true ∧ ∃ args, matchParams m.params = some args := by
  simp only [methodMatches, Bool.and_eq_true] at h
  refine ⟨h.1, ?_⟩
  have := (matchParams_isSome_iff m.params).mpr h.2
  exact Option.isSome_iff_exists.mp this

theorem matchParams_of_not_methodMatches {m : Method}
    (hlead : leadsWith m.name (gs "Render") = true) (h : methodMatches m = false) :
    matchParams m.params = none := by
  simp only [methodMatches, hlead, Bool.true_and] at h
  have : ¬(matchParams m.params).isSome = true := by
    rw [matchParams_isSome_iff m.params, h]
    exact Bool.false_ne_true
  exact Option.not_isSome_iff_eq_none.mp this

theorem findRendererAux_no_match : ∀ (ms : List Method),
    matchingMethods ms = [] →
    ∀ acc, findRendererAux ms acc = .ok acc := by
  intro ms
  induction ms with
  | nil => intro _ acc; rfl
  | cons m rest ih =>
    intro hnone acc
    have hfilter := hnone
    simp only [matchingMethods, List.filter_cons] at hfilter
    by_cases hm : methodMatches m = true
    · rw [hm] at hfilter; simp at hfilter
    · simp only [Bool.not_eq_true] at hm
      rw [hm] at hfilter
      simp only [Bool.false_eq_true, if_false] at hfilter
      by_cases hlead : leadsWith m.name (gs "Render") = true
      · have hmp := matchParams_of_not_methodMatches hlead hm
        simp only [findRendererAux, hlead, if_true, hmp]
        exact ih hfilter acc
      · simp only [Bool.not_eq_true] at hlead
        simp only [findRendererAux, hlead, Bool.false_eq_true, if_false]
        exact ih hfilter acc

theorem findRendererAux_some_match : ∀ (ms : List Method),
    matchingMethods ms ≠ [] →
    ∀ r, findRendererAux ms (some r) = .error .ambiguousRenderer := by
  intro ms
  induction ms with
  | nil => intro h; exact absurd rfl h
  | cons m rest ih =>
    intro hne r
    by_cases hm : methodMatches m = true
    · obtain ⟨hlead, args, hargs⟩ := matchParams_of_methodMatches hm
      simp [findRendererAux, hlead, hargs]
    · simp only [Bool.not_eq_true] at hm
      have hrest : matchingMethods rest ≠ [] := by
        intro h0
        apply hne
        simp only [matchingMethods, List.filter_cons, hm, Bool.false_eq_true, if_false]
        exact h0
      by_cases hlead : leadsWith m.name (gs "Render") = true
      · have hmp := matchParams_of_not_methodMatches hlead hm
        simp only [findRendererAux, hlead, if_true, hmp]
        exact ih hrest r
      · simp only [Bool.not_eq_true] at hlead
        simp only [findRendererAux, hlead, Bool.false_eq_true, if_false]
        exact ih hrest r

theorem findRendererAux_none_cases : ∀ ms : List Method,
    (matchingMethods ms = [] ∧ findRendererAux ms none = .ok none) ∨
    (∃ m args rest, matchingMethods ms = m :: rest ∧ matchParams m.params = some args ∧
      (rest = [] → findRendererAux ms none = .ok (some (m, args))) ∧
      (rest ≠ [] → findRendererAux ms none = .error .ambiguousRenderer)) := by
  intro ms
  induction ms with
  | nil => exact Or.inl ⟨rfl, rfl⟩
  | cons m ms ih =>
    by_cases hm : methodMatches m = true
    · obtain ⟨hlead, args, hargs⟩ := matchParams_of_methodMatches hm
      have hfilter : matchingMethods (m :: ms) = m :: matchingMethods ms := by
        simp only [matchingMethods, List.filter_cons, hm, if_true]
      have hstep : findRendererAux (m :: ms) none = findRendererAux ms (some (m, args)) := by
        simp only [findRendererAux, hlead, if_true, hargs]
      refine Or.inr ⟨m, args, matchingMethods ms, hfilter, hargs, ?_, ?_⟩
      · intro hrest
        rw [hstep]
        exact findRendererAux_no_match ms hrest _
      · intro hrest
        rw [hstep]
        exact findRendererAux_some_match ms hrest _
    · simp only [Bool.not_eq_true] at hm
      have hfilter : matchingMethods (m :: ms) = matchingMethods ms := by
        simp only [matchingMethods, List.filter_cons, hm, Bool.false_eq_true, if_false]
      have hstep : findRendererAux (m :: ms) none = findRendererAux ms none := by
        by_cases hlead : leadsWith m.name (gs "Render") = true
        · have hmp := matchParams_of_not_methodMatches hlead hm
          simp only [findRendererAux, hlead, if_true, hmp]
        · simp only [Bool.not_eq_true] at hlead
          simp only [findRendererAux, hlead, Bool.false_eq_true, if_false]
      rw [hfilter, hstep]
      exact ih

theorem findRenderer_none (ms : List Method) (h : matchingMethods ms = []) :
    findRenderer ms = .error .noRenderer := by
  rcases findRendererAux_none_cases ms with ⟨_, haux⟩ | ⟨m, args, rest, hfilter, _, _, _⟩
  · simp [findRenderer, haux]
  · rw [h] at hfilter; cases hfilter

theorem findRenderer_unique (ms : List Method) (m : Method)
    (h : matchingMethods ms = [m]) :
    ∃ args, matchParams m.params = some args ∧ findRenderer ms = .ok (m, args) := by
  rcases findRendererAux_none_cases ms with ⟨hf, _⟩ | ⟨m1, args, rest, hfilter, hargs, hone, _⟩
  · rw [h] at hf; cases hf
  · rw [h] at hfilter
    injection hfilter with h1 h2
    subst h1
    have haux := hone h2.symm
    exact ⟨args, hargs, by simp [findRenderer, haux]⟩

theorem findRenderer_ambiguous (ms : List Method)
    (h : 1 < (matchingMethods ms).length) :
    findRenderer ms = .error .ambiguousRenderer := by
  rcases findRendererAux_none_cases ms with ⟨hf, _⟩ | ⟨m, args, rest, hfilter, _, _, hmany⟩
  · rw [hf] at h; simp at h
  · have hrest : rest ≠ [] := by
      intro h0
      rw [hfilter, h0] at h
      simp at h
    simp [findRenderer, hmany hrest]

/-!
Claim theorems for the render dispatcher, with witnesses.
-/

/-- C1: for every `Context.Render` call that reaches routine dispatch (no
lifecycle short-circuit, target not the dry-run target): more than one
"Render"-prefixed method of the expected task with every parameter
convertible yields the `AmbiguousRenderer` error, none yields the
`NoRenderer` error, and otherwise exactly the unique matching method is
invoked. -/
theorem render_routine_dispatch_trichotomy (inp : RenderInput)
    (hl : inp.lifecycle = none ∨ inp.lifecycle = some .Sync)
    (hdr : inp.targetIsDryRun = false) :
    (1 < (matchingMethods inp.methods).length →
       (render inp).result = some .ambiguousRenderer ∧ (render inp).invoked = none) ∧
    (matchingMethods inp.methods = [] →
       (render inp).result = some .noRenderer ∧ (render inp).invoked = none) ∧
    (∀ m, matchingMethods inp.methods = [m] →
       ∃ args, matchParams m.params = some args ∧
         (render inp).invoked =
           some ⟨m.name, args ++ [.val inp.a, .val inp.e, .val inp.changes]⟩) := by
  rw [render_eq_dispatch inp hl]
  refine ⟨?_, ?_, ?_⟩
  · intro h
    have hf := findRenderer_ambiguous inp.methods h
    constructor <;> simp [renderDispatch, hdr, hf]
  · intro h
    have hf := findRenderer_none inp.methods h
    constructor <;> simp [renderDispatch, hdr, hf]
  · intro m hm
    obtain ⟨args, hargs, hfind⟩ := findRenderer_unique inp.methods m hm
    exact ⟨args, hargs, by simp [renderDispatch, hdr, hfind]⟩

/-- Witness for C1: a task declaring two routines matching the same target
renders to the `AmbiguousRenderer` error. -/
theorem render_routine_dispatch_trichotomy_witness :
    (render { a := ⟨0, false⟩, e := ⟨1, false⟩, changes := ⟨2, false⟩,
              lifecycle := none, taskName := gs "t", changeList := .ok [],
              targetIsDryRun := false, dryRunResult := none,
              methods := [⟨gs "RenderAWS", [⟨true, false, false⟩], none⟩,
                          ⟨gs "RenderGCE", [⟨false, true, false⟩], none⟩] }).result
      = some .ambiguousRenderer :=
  ((render_routine_dispatch_trichotomy _ (Or.inl rfl) rfl).1 (by decide)).1

/-- C2: for every `Context.Render` call with a declared lifecycle policy and
a nil `actual`: `ExistsAndValidates` and `ExistsAndWarnIfChanges` fail with
a `LifecycleViolation` ("object was not found"), while `Sync` or an unset
policy proceeds to normal dispatch. -/
theorem render_lifecycle_absent (inp : RenderInput) (hnil : inp.a.isNil = true) :
    (inp.lifecycle = some .ExistsAndValidates →
       (render inp).result = some .eavNotFound ∧
       RenderErr.isLifecycleViolation .eavNotFound = true) ∧
    (inp.lifecycle = some .ExistsAndWarnIfChanges →
       (render inp).result = some .eawicNotFound ∧
       RenderErr.isLifecycleViolation .eawicNotFound = true) ∧
    ((inp.lifecycle = some .Sync ∨ inp.lifecycle = none) →
       render inp = renderDispatch inp) := by
  refine ⟨?_, ?_, ?_⟩
  · intro h
    exact ⟨by simp [render, h, hnil], rfl⟩
  · intro h
    exact ⟨by simp [render, h, hnil], rfl⟩
  · intro h
    exact render_eq_dispatch inp h.symm

/-- Witness for C2: a nil actual under `ExistsAndValidates` fails with the
"object was not found" violation. -/
theorem render_lifecycle_absent_witness :
    (render { a := ⟨0, true⟩, e := ⟨1, false⟩, changes := ⟨2, false⟩,
              lifecycle := some .ExistsAndValidates, taskName := gs "t",
              changeList := .ok [], targetIsDryRun := false, dryRunResult := none,
              methods := [] }).result = some .eavNotFound :=
  ((render_lifecycle_absent _ rfl).1 rfl).1

/-- C3: for every `Context.Render` call with policy `ExistsAndWarnIfChanges`
and a present (non-nil) actual whose change-list computation succeeds:
the call returns success, no task routine is invoked, nothing is recorded
against any target, and the change list's report is written to the
diagnostic stream. -/
theorem render_warn_present_succeeds (inp : RenderInput) (cl : List Change)
    (hl : inp.lifecycle = some .ExistsAndWarnIfChanges)
    (hnil : inp.a.isNil = false)
    (hcl : inp.changeList = .ok cl) :
    (render inp).result = none ∧ (render inp).invoked = none ∧
    (render inp).recorded = none ∧
    (render inp).stderr = lifecycleReport inp.taskName cl := by
  refine ⟨?_, ?_, ?_, ?_⟩ <;> simp [render, hl, hnil, hcl]

/-- Witness for C3: a diverged object under `ExistsAndWarnIfChanges`
renders successfully with the report on the diagnostic stream. -/
theorem render_warn_present_succeeds_witness :
    (render { a := ⟨0, false⟩, e := ⟨1, false⟩, changes := ⟨2, false⟩,
              lifecycle := some .ExistsAndWarnIfChanges, taskName := gs "mytask",
              changeList := .ok [⟨gs "Name", gs "foo"⟩], targetIsDryRun := false,
              dryRunResult := none, methods := [] }).result = none ∧
    (render { a := ⟨0, false⟩, e := ⟨1, false⟩, changes := ⟨2, false⟩,
              lifecycle := some .ExistsAndWarnIfChanges, taskName := gs "mytask",
              changeList := .ok [⟨gs "Name", gs "foo"⟩], targetIsDryRun := false,
              dryRunResult := none, methods := [] }).stderr =
      lifecycleReport (gs "mytask") [⟨gs "Name", gs "foo"⟩] := by
  have h := render_warn_present_succeeds
    { a := ⟨0, false⟩, e := ⟨1, false⟩, changes := ⟨2, false⟩,
      lifecycle := some .ExistsAndWarnIfChanges, taskName := gs "mytask",
      changeList := .ok [⟨gs "Name", gs "foo"⟩], targetIsDryRun := false,
      dryRunResult := none, methods := [] }
    [⟨gs "Name", gs "foo"⟩] rfl rfl rfl
  exact ⟨h.1, h.2.2.2⟩

/-- C4: for every `Context.Render` call against the dry-run target with no
lifecycle short-circuit: the call delegates to the dry-run target's
`Render`, which records exactly the triple `(actual, expected, changes)`;
its result is returned and no task-declared routine is inspected or
invoked. -/
theorem render_dry_run_records (inp : RenderInput)
    (hl : inp.lifecycle = none ∨ inp.lifecycle = some .Sync)
    (hdr : inp.targetIsDryRun = true) :
    render inp = { result := inp.dryRunResult, stderr := [],
                   recorded := some (inp.a, inp.e, inp.changes), invoked := none } := by
  rw [render_eq_dispatch inp hl]
  simp [renderDispatch, hdr]

/-- Witness for C4: a dry-run render records the triple and invokes no
routine, even though a matching routine is declared. -/
theorem render_dry_run_records_witness :
    render { a := ⟨7, false⟩, e := ⟨8, false⟩, changes := ⟨9, false⟩,
             lifecycle := none, taskName := gs "t", changeList := .ok [],
             targetIsDryRun := true, dryRunResult := none,
             methods := [⟨gs "RenderAWS", [⟨true, false, false⟩], none⟩] } =
      { result := none, stderr := [],
        recorded := some (⟨7, false⟩, ⟨8, false⟩, ⟨9, false⟩), invoked := none } :=
  render_dry_run_records _ (Or.inl rfl) rfl

/-- Counterexample to C5 as stated: with policy `ExistsAndValidates`, a
present actual, and an empty change list (actual matches expected), `Render`
still returns the `LifecycleViolation` "object did not match". -/
theorem render_eav_empty_changes_counterexample :
    (render { a := ⟨0, false⟩, e := ⟨1, false⟩, changes := ⟨2, false⟩,
              lifecycle := some .ExistsAndValidates, taskName := gs "t",
              changeList := .ok [], targetIsDryRun := false, dryRunResult := none,
              methods := [] }).result = some .eavDidNotMatch ∧
    RenderErr.isLifecycleViolation .eavDidNotMatch = true :=
  ⟨rfl, rfl⟩

/-- C5 (amended): with policy `ExistsAndValidates` and a present actual,
whenever the change-list computation succeeds `Render` returns the
`LifecycleViolation` "object did not match" unconditionally — it does not
consult the change list, so the error is returned even when the change list
is empty. -/
theorem render_eav_present_always_fails (inp : RenderInput) (cl : List Change)
    (hl : inp.lifecycle = some .ExistsAndValidates)
    (hnil : inp.a.isNil = false)
    (hcl : inp.changeList = .ok cl) :
    (render inp).result = some .eavDidNotMatch ∧
    RenderErr.isLifecycleViolation .eavDidNotMatch = true := by
  refine ⟨?_, rfl⟩
  simp [render, hl, hnil, hcl]

/-- Witness for the amended C5: a nonempty change list under
`ExistsAndValidates` with a present actual fails with "object did not
match". -/
theorem render_eav_present_always_fails_witness :
    (render { a := ⟨3, false⟩, e := ⟨4, false⟩, changes := ⟨5, false⟩,
              lifecycle := some .ExistsAndValidates, taskName := gs "u",
              changeList := .ok [⟨gs "Name", gs "bar"⟩], targetIsDryRun := false,
              dryRunResult := none, methods := [] }).result = some .eavDidNotMatch :=
  (render_eav_present_always_fails _ [⟨gs "Name", gs "bar"⟩] rfl rfl rfl).1

/-- C6: when a unique task-declared routine is resolved, it is invoked with
the resolved context/target arguments followed by `actual`, `expected`,
`changes` in that order, and its returned error (possibly nil) is returned
unchanged. -/
theorem render_unique_routine_invocation (inp : RenderInput) (m : Method)
    (args : List DispatchArg)
    (hl : inp.lifecycle = none ∨ inp.lifecycle = some .Sync)
    (hdr : inp.targetIsDryRun = false)
    (hfind : findRenderer inp.methods = .ok (m, args)) :
    (render inp).invoked =
      some ⟨m.name, args ++ [.val inp.a, .val inp.e, .val inp.changes]⟩ ∧
    (render inp).result = m.returnsErr := by
  rw [render_eq_dispatch inp hl]
  constructor <;> simp [renderDispatch, hdr, hfind]

/-- Witness for C6: the unique routine (receiver, context, target
parameters) is invoked with context, target, then the three task values, and
its error comes back unchanged. -/
theorem render_unique_routine_invocation_witness :
    (render { a := ⟨0, false⟩, e := ⟨1, false⟩, changes := ⟨2, false⟩,
              lifecycle := some .Sync, taskName := gs "t", changeList := .ok [],
              targetIsDryRun := false, dryRunResult := none,
              methods := [⟨gs "RenderAWS",
                [⟨true, false, false⟩, ⟨false, true, false⟩, ⟨false, false, true⟩],
                some (.routineErr (gs "boom"))⟩] }).invoked =
      some ⟨gs "RenderAWS",
        [.contextArg, .targetArg, .val ⟨0, false⟩, .val ⟨1, false⟩, .val ⟨2, false⟩]⟩ ∧
    (render { a := ⟨0, false⟩, e := ⟨1, false⟩, changes := ⟨2, false⟩,
              lifecycle := some .Sync, taskName := gs "t", changeList := .ok [],
              targetIsDryRun := false, dryRunResult := none,
              methods := [⟨gs "RenderAWS",
                [⟨true, false, false⟩, ⟨false, true, false⟩, ⟨false, false, true⟩],
                some (.routineErr (gs "boom"))⟩] }).result =
      some (.routineErr (gs "boom")) :=
  render_unique_routine_invocation _
    ⟨gs "RenderAWS",
      [⟨true, false, false⟩, ⟨false, true, false⟩, ⟨false, false, true⟩],
      some (.routineErr (gs "boom"))⟩
    [.contextArg, .targetArg] (Or.inr rfl) rfl (by rfl)

/-- C8: `Context.Close` is best-effort teardown: with a nonempty `Tmpdir` it
attempts the recursive removal, logs (not propagates) a removal failure, and
returns no error under any condition. -/
theorem contextClose_best_effort (inp : CloseInput) (h : inp.tmpdir ≠ []) :
    (contextClose inp).attemptedRemove = true ∧
    (contextClose inp).warned = inp.removeFails ∧
    (contextClose inp).returnedError = none ∧
    (∀ inp2 : CloseInput, (contextClose inp2).returnedError = none) := by
  refine ⟨by simp [contextClose, h], by simp [contextClose, h],
    by simp [contextClose, h], ?_⟩
  intro inp2
  unfold contextClose
  split <;> rfl

/-- Witness for C8: a failing removal of a nonempty scratch directory is
attempted, warned about, and not propagated. -/
theorem contextClose_best_effort_witness :
    (contextClose ⟨gs "/tmp/deploy123", true⟩).attemptedRemove = true ∧
    (contextClose ⟨gs "/tmp/deploy123", true⟩).warned = true ∧
    (contextClose ⟨gs "/tmp/deploy123", true⟩).returnedError = none :=
  ⟨(contextClose_best_effort _ (by decide)).1,
   (contextClose_best_effort ⟨gs "/tmp/deploy123", true⟩ (by decide)).2.1,
   (contextClose_best_effort ⟨gs "/tmp/deploy123", true⟩ (by decide)).2.2.1⟩

/-!
The lifecycle-divergence report format (claim C7).
-/

theorem unlinesGo_cons (x : GoString) (l : List GoString) :
    unlinesGo (x :: l) = x ++ gs "\n" ++ unlinesGo l := by
  simp [unlinesGo, List.append_assoc]

theorem unlinesGo_append (l1 l2 : List GoString) :
    unlinesGo (l1 ++ l2) = unlinesGo l1 ++ unlinesGo l2 := by
  simp [unlinesGo]

theorem unlinesGo_reportFieldLines (ch : Change) :
    unlinesGo (reportFieldLines ch) = renderChangeText ch := by
  simp only [reportFieldLines, renderChangeText]
  by_cases h : (goSplitChar '\n' ch.Description).length = 1
  · rw [if_pos h, if_pos h]
    simp [unlinesGo, List.append_assoc]
  · rw [if_neg h, if_neg h]
    simp [unlinesGo, List.map_map, Function.comp_def, List.append_assoc]

theorem unlinesGo_flatMap_fieldLines (cl : List Change) :
    unlinesGo (cl.flatMap reportFieldLines) = (cl.map renderChangeText).flatten := by
  induction cl with
  | nil => rfl
  | cons ch cl ih =>
    rw [List.flatMap_cons, unlinesGo_append, unlinesGo_reportFieldLines, ih,
      List.map_cons, List.flatten_cons]

/-- Counterexample to C7 as stated: for the task name "MyTask" and the
single-line change `Name`/`foo`, the report does not contain the claimed
exact line `"  \tName\tfoo"` (the field name is padded to 20 columns), and
its first line is a fixed preamble that does not contain the task's name
(the task-name header is only the second line). -/
theorem lifecycleReport_format_counterexample :
    containsSeg (lifecycleReport (gs "MyTask") [⟨gs "Name", gs "foo"⟩])
      (gs "  \tName\tfoo") = false ∧
    (goSplitChar '\n' (lifecycleReport (gs "MyTask") [⟨gs "Name", gs "foo"⟩])).head? =
      some (gs "Object from different phase did not match, problems possible:") ∧
    containsSeg (gs "Object from different phase did not match, problems possible:")
      (gs "MyTask") = false := by
  refine ⟨?_, ?_, ?_⟩ <;> decide

/-- C7 (amended): the report consists of exactly these lines, each
newline-terminated: the fixed preamble line, a header line
`"  <task name>/?"` containing the task's logical name, then for each
changed field either the single line `"  \t<field padded to 20>\t<description>"`
or the padded field-name line followed by one indented line
`"  \t<20 spaces>\t<line>"` per line of a multi-line description, then a
trailing blank line. -/
theorem lifecycleReport_line_structure (taskName : GoString) (cl : List Change) :
    lifecycleReport taskName cl = unlinesGo (reportLines taskName cl) := by
  have h1 : gs "Object from different phase did not match, problems possible:\n" =
      gs "Object from different phase did not match, problems possible:" ++ gs "\n" := by
    decide
  have h2 : (gs "/?" : GoString) = gs "/" ++ gs "?" := by decide
  simp only [reportLines, lifecycleReport, unlinesGo_append, unlinesGo_cons,
    unlinesGo_flatMap_fieldLines, h1, h2]
  simp [unlinesGo, List.append_assoc]

/-!
Claim theorems for the cluster-defaulting pass, with witnesses.
-/

/-- C9: `assignProxy` is idempotent on the proxy-exclusion list: for every
cluster with a non-nil `EgressProxy` on which `assignProxy` succeeds,
applying `assignProxy` again to the resulting cluster succeeds and yields
the same `ProxyExcludes` string (every candidate exclude is appended only
when not already contained in the excludes string). -/
theorem assignProxy_idempotent_on_excludes (env : Env) (c : Cluster)
    (ep1 : EgressProxySpec) (h1 : assignProxy env c = .ok (some ep1)) :
    ∃ ep2, assignProxy env { c with Spec := { c.Spec with EgressProxy := some ep1 } } =
        .ok (some ep2) ∧ ep2.ProxyExcludes = ep1.ProxyExcludes :=
  ⟨ep1, assignProxy_second_run env c ep1 h1, rfl⟩

/-- Witness for C9 at a concrete cluster: applying `assignProxy` to the
already-populated result leaves the exclude string unchanged. -/
theorem assignProxy_idempotent_on_excludes_witness :
    ∃ ep2, assignProxy witnessEnv
        { witnessCluster with Spec := { witnessCluster.Spec with EgressProxy := some ⟨gs "127.0.0.1,localhost,api.c,c,100.64.0.1,100.64.0.0/10,10.0.0.0/8"⟩ } } =
        .ok (some ep2) ∧
      ep2.ProxyExcludes =
        (⟨gs "127.0.0.1,localhost,api.c,c,100.64.0.1,100.64.0.0/10,10.0.0.0/8"⟩ :
          EgressProxySpec).ProxyExcludes :=
  assignProxy_idempotent_on_excludes witnessEnv witnessCluster
    ⟨gs "127.0.0.1,localhost,api.c,c,100.64.0.1,100.64.0.0/10,10.0.0.0/8"⟩ (by rfl)

/-- C10: `PerformAssignments` only populates empty fields: for every cluster
whose `NetworkCIDR`, `NonMasqueradeCIDR`, `MasterPublicName`, `Topology` and
`KubernetesVersion` are already set, a successful `PerformAssignments` run
leaves those five fields unchanged. -/
theorem performAssignments_preserves_populated_fields (env : Env) (c c' : Cluster)
    (hNC : c.Spec.NetworkCIDR ≠ [])
    (hNM : c.Spec.NonMasqueradeCIDR ≠ [])
    (hMP : c.Spec.MasterPublicName ≠ [])
    (hTop : c.Spec.Topology ≠ none)
    (hKV : c.Spec.KubernetesVersion ≠ [])
    (hok : PerformAssignments env c = .ok c') :
    c'.Spec.NetworkCIDR = c.Spec.NetworkCIDR ∧
    c'.Spec.NonMasqueradeCIDR = c.Spec.NonMasqueradeCIDR ∧
    c'.Spec.MasterPublicName = c.Spec.MasterPublicName ∧
    c'.Spec.Topology = c.Spec.Topology ∧
    c'.Spec.KubernetesVersion = c.Spec.KubernetesVersion :=
  performAssignments_frame env c c' hNC hNM hMP hTop hKV hok

/-- Witness for C10 at a concrete cluster: a successful run that rewrites
the subnets and the egress proxy leaves the five populated fields intact. -/
theorem performAssignments_preserves_populated_fields_witness :
    ({ witnessCluster with Spec := { witnessCluster.Spec with Subnets := [gs "10.1.0.0/16"], EgressProxy := some ⟨gs "127.0.0.1,localhost,api.c,c,100.64.0.1,100.64.0.0/10,10.0.0.0/8"⟩ } } :
      Cluster).Spec.NetworkCIDR = witnessCluster.Spec.NetworkCIDR ∧
    ({ witnessCluster with Spec := { witnessCluster.Spec with Subnets := [gs "10.1.0.0/16"], EgressProxy := some ⟨gs "127.0.0.1,localhost,api.c,c,100.64.0.1,100.64.0.0/10,10.0.0.0/8"⟩ } } :
      Cluster).Spec.NonMasqueradeCIDR = witnessCluster.Spec.NonMasqueradeCIDR ∧
    ({ witnessCluster with Spec := { witnessCluster.Spec with Subnets := [gs "10.1.0.0/16"], EgressProxy := some ⟨gs "127.0.0.1,localhost,api.c,c,100.64.0.1,100.64.0.0/10,10.0.0.0/8"⟩ } } :
      Cluster).Spec.MasterPublicName = witnessCluster.Spec.MasterPublicName ∧
    ({ witnessCluster with Spec := { witnessCluster.Spec with Subnets := [gs "10.1.0.0/16"], EgressProxy := some ⟨gs "127.0.0.1,localhost,api.c,c,100.64.0.1,100.64.0.0/10,10.0.0.0/8"⟩ } } :
      Cluster).Spec.Topology = witnessCluster.Spec.Topology ∧
    ({ witnessCluster with Spec := { witnessCluster.Spec with Subnets := [gs "10.1.0.0/16"], EgressProxy := some ⟨gs "127.0.0.1,localhost,api.c,c,100.64.0.1,100.64.0.0/10,10.0.0.0/8"⟩ } } :
      Cluster).Spec.KubernetesVersion = witnessCluster.Spec.KubernetesVersion :=
  performAssignments_preserves_populated_fields witnessEnv witnessCluster _
    (by decide) (by decide) (by decide) (by decide) (by decide) (by rfl)
